import Mathlib

/-!
Verification of the Roku ECP CLI (`roku.py`): a shallow embedding of the
discovery core (SSDP header parser, discovery client, host resolver) and of
the `type` command loop, with theorems checking the specification's claims.

Conventions of the embedding:
* Python strings are Lean `String`s; byte-level UTF-8 decoding of received
  datagrams is abstracted (responses carry already-decoded text).
* A Python `dict` is an association list with in-place overwrite
  (`insertPy`), matching CPython insertion-order / last-write-wins
  semantics.
* Python exceptions are explicit error constructors carried in result types.
* Wall-clock readings are nonnegative rationals supplied by an abstract
  network trace; machine floats are idealised as exact rationals.
-/

namespace Roku

/-! ### Python string primitives -/

/-- The line-break characters recognised by Python `str.splitlines`. -/
def isLineBreak (c : Char) : Bool :=
  c = '\n' || c = '\r' || c.toNat = 0x0b || c.toNat = 0x0c ||
  c.toNat = 0x1c || c.toNat = 0x1d || c.toNat = 0x1e ||
  c.toNat = 0x85 || c.toNat = 0x2028 || c.toNat = 0x2029

/-- Worker for `pySplitlines`: accumulates the current line reversed; a
`"\r\n"` pair counts as a single boundary, a trailing unterminated line is
kept, terminators are dropped. -/
def splitlinesGo : List Char → List Char → List (List Char)
  | [], acc => if acc = [] then [] else [acc.reverse]
  | '\r' :: '\n' :: cs, acc => acc.reverse :: splitlinesGo cs []
  | c :: cs, acc =>
    if isLineBreak c then acc.reverse :: splitlinesGo cs []
    else splitlinesGo cs (c :: acc)

/-- Python `str.splitlines()`. -/
def pySplitlines (s : String) : List String :=
  (splitlinesGo s.toList []).map (fun cs => String.mk cs)

/-- The characters for which Python `str.isspace()` holds (the set stripped
by a bare `str.strip()`). -/
def isPySpace (c : Char) : Bool :=
  let n := c.toNat
  (0x09 ≤ n && n ≤ 0x0d) || n = 0x20 || (0x1c ≤ n && n ≤ 0x1f) ||
  n = 0x85 || n = 0xa0 || n = 0x1680 || (0x2000 ≤ n && n ≤ 0x200a) ||
  n = 0x2028 || n = 0x2029 || n = 0x202f || n = 0x205f || n = 0x3000

/-- Python `str.strip()` with no argument: drop whitespace from both ends. -/
def pyStrip (s : String) : String :=
  String.mk (((s.toList.dropWhile isPySpace).reverse.dropWhile isPySpace).reverse)

/-- Python `str.lower()`; the embedding lowercases the ASCII range
(`Char.toLower`), which covers every header key and URL authority this
program manipulates. -/
def pyLower (s : String) : String := String.mk (s.toList.map Char.toLower)

/-- Worker for `splitFirstColon`. -/
def splitColonGo : List Char → List Char → Option (List Char × List Char)
  | [], _ => none
  | ':' :: rest, acc => some (acc.reverse, rest)
  | c :: rest, acc => splitColonGo rest (c :: acc)

/-- Python `line.split(":", 1)` combined with the guarding `":" in line`
test: `some (before, after)` splits at the first colon, `none` when the
line has no colon. -/
def splitFirstColon (line : String) : Option (String × String) :=
  match splitColonGo line.toList [] with
  | none => none
  | some (k, v) => some (String.mk k, String.mk v)

/-! ### Python dict (association list, last-write-wins) -/

/-- CPython `d[k] = v`: overwrite in place when the key exists, else
append. -/
def insertPy : List (String × String) → String → String → List (String × String)
  | [], k, v => [(k, v)]
  | (k0, v0) :: rest, k, v =>
    if k0 = k then (k0, v) :: rest else (k0, v0) :: insertPy rest k v

/-- CPython `d.get(k)` (also `d.get(k)` with default `None`). -/
def getPy : List (String × String) → String → Option String
  | [], _ => none
  | (k0, v0) :: rest, k => if k0 = k then some v0 else getPy rest k

/-! ### `parse_ssdp_headers` (roku.py lines 44-52) -/

/-- The body of the parser's per-line loop (roku.py lines 47-51): skip a
line without a colon; otherwise split at the first colon, strip both
halves, lowercase the key and store. -/
def headerStep (m : List (String × String)) (line : String) : List (String × String) :=
  match splitFirstColon line with
  | none => m
  | some (k, v) => insertPy m (pyLower (pyStrip k)) (pyStrip v)

/-- `parse_ssdp_headers(raw)` (roku.py lines 44-52): drop the status line,
fold the remaining lines into a dict. -/
def parse_ssdp_headers (raw : String) : List (String × String) :=
  ((pySplitlines raw).drop 1).foldl headerStep []

/-! ### `ssdp_discover` (roku.py lines 18-41)

The socket layer is abstracted by a trace: each entry pairs the wall-clock
elapsed time (seconds since `start`, a nonnegative rational) observed at
one `while` guard with the outcome of the `recvfrom` attempt that follows
when the guard passes.  An exhausted trace models the clock having passed
the deadline.  Resource use is tracked by an explicit count of open
sockets: `socket.socket(...)` opens one, `close` would release one — the
source contains no `close` call (and no `with` block or `try/finally`), so
the embedding of `ssdp_discover` never invokes `sockClose`. -/

/-- Outcome of one `sock.recvfrom(65535)` attempt. -/
inductive RecvEvent where
  /-- A datagram arrives: sender address and permissively decoded text. -/
  | pkt (addr : String) (text : String)
  /-- The per-receive socket timeout elapses (`socket.timeout`). -/
  | sockTimeout
  /-- Some other `OSError` is raised by the receive. -/
  | osError
deriving DecidableEq

/-- Count of sockets currently open in the process. -/
structure SockState where
  openSockets : Nat
deriving DecidableEq

/-- Effect of `socket.socket(...)`. -/
def sockOpen (st : SockState) : SockState := ⟨st.openSockets + 1⟩

/-- Effect of `sock.close()` — present in the socket API but never called
by `ssdp_discover` in the source. -/
def sockClose (st : SockState) : SockState := ⟨st.openSockets - 1⟩

/-- Result of a discovery call: a normal return with the collected
responses, or a propagating exception; either way the socket state at the
moment control leaves the function is recorded. -/
inductive DiscResult where
  | ok (responses : List (String × String)) (st : SockState)
  | exc (msg : String) (st : SockState)
deriving DecidableEq

/-- The socket state when control leaves `ssdp_discover`. -/
def DiscResult.sockets : DiscResult → SockState
  | .ok _ st => st
  | .exc _ st => st

/-- The collect loop of `ssdp_discover` (roku.py lines 33-41): while the
elapsed time is below the timeout, attempt a receive; `socket.timeout`
breaks the loop, any other receive error propagates, a datagram is
appended.  The socket state `st` is threaded through unchanged because the
loop body contains no `close`. -/
def recvLoop (timeout : Int) (st : SockState) :
    List (ℚ × RecvEvent) → List (String × String) → DiscResult
  | [], acc => .ok acc.reverse st
  | (t, ev) :: rest, acc =>
    if t < (timeout : ℚ) then
      match ev with
      | .pkt addr text => recvLoop timeout st rest ((addr, text) :: acc)
      | .sockTimeout => .ok acc.reverse st
      | .osError => .exc "OSError" st
    else .ok acc.reverse st

/-- `ssdp_discover(timeout)` (roku.py lines 18-41): open the UDP socket,
configure it (`sock.settimeout(timeout)` raises `ValueError` for a
negative value, before any send or receive), send the M-SEARCH datagram,
then run the collect loop.  No path closes the socket. -/
def ssdp_discover (timeout : Int) (trace : List (ℚ × RecvEvent))
    (st : SockState) : DiscResult :=
  let st := sockOpen st
  if timeout < 0 then .exc "ValueError: Timeout value out of range" st
  else recvLoop timeout st trace []

/-! ### `urllib.parse.urlparse(loc).hostname`

The slice of CPython `urllib.parse` that `pick_host` exercises: `urlsplit`
followed by the `hostname` property.  `urlsplit` lstrips C0-control/space
characters, deletes every tab, CR and LF, strips a well-formed scheme,
and when the remainder starts with `//` takes the authority up to the
first `/`, `?` or `#`; an authority containing `[` without `]` (or the
converse) raises `ValueError("Invalid IPv6 URL")`.  The `hostname`
property keeps the part of the authority after the last `@`, takes the
bracketed host if a `[` is present and otherwise the part before the
first `:`, lowercases it, and yields `None` when it is empty. -/

/-- A character `urlsplit` lstrips (WHATWG C0 control or space). -/
def isC0OrSpace (c : Char) : Bool := c.toNat ≤ 0x20

/-- A character `urlsplit` deletes anywhere in the URL. -/
def isUnsafeUrlChar (c : Char) : Bool := c = '\t' || c = '\r' || c = '\n'

/-- A character allowed in a URL scheme after the first. -/
def isSchemeChar (c : Char) : Bool :=
  c.isAlpha || c.isDigit || c = '+' || c = '-' || c = '.'

/-- Strip a leading `scheme:` when the prefix before the first colon is a
nonempty run of scheme characters starting with an ASCII letter (the
scheme itself is discarded — only the remainder matters for `hostname`). -/
def dropScheme (cs : List Char) : List Char :=
  let pre := cs.takeWhile (fun c => c ≠ ':')
  if pre.length < cs.length ∧ pre ≠ [] ∧
      (pre.headD ' ').isAlpha ∧ pre.all isSchemeChar then
    cs.drop (pre.length + 1)
  else cs

/-- The part of the authority after the last `@` (CPython
`netloc.rpartition("@")[2]`). -/
def afterLastAt (cs : List Char) : List Char :=
  ((cs.reverse.takeWhile (fun c => c ≠ '@'))).reverse

/-- The `hostname` property applied to an authority string: `none` for an
empty host, otherwise the lowercased host. -/
def hostnameOfNetloc (netloc : List Char) : Option String :=
  let hostinfo := afterLastAt netloc
  let host :=
    if hostinfo.contains '[' then
      ((hostinfo.dropWhile (fun c => c ≠ '[')).drop 1).takeWhile (fun c => c ≠ ']')
    else hostinfo.takeWhile (fun c => c ≠ ':')
  if host = [] then none else some (String.mk (host.map Char.toLower))

/-- `urllib.parse.urlparse(url).hostname`: `Except` carries the
`ValueError` that `urlsplit` raises on a half-bracketed authority. -/
def urlparse_hostname (url : String) : Except String (Option String) :=
  let cs := (url.toList.dropWhile isC0OrSpace).filter (fun c => ¬ isUnsafeUrlChar c)
  let cs := dropScheme cs
  if cs.take 2 = ['/', '/'] then
    let netloc := (cs.drop 2).takeWhile (fun c => c ≠ '/' && c ≠ '?' && c ≠ '#')
    if (netloc.contains '[' && ¬ netloc.contains ']') ||
        (netloc.contains ']' && ¬ netloc.contains '[') then
      .error "Invalid IPv6 URL"
    else .ok (hostnameOfNetloc netloc)
  else .ok none

/-! ### `pick_host` (roku.py lines 55-70) -/

/-- The global CLI arguments consumed by `pick_host`: `--host` (argparse
default `None`, so an `Option`), `--auto` (store-true flag) and
`--timeout` (argparse `type=int`, default 3). -/
structure Args where
  host : Option String
  auto : Bool
  timeout : Int
deriving DecidableEq

/-- The two environment variables read by `pick_host`: `os.environ.get`
yields `None` when a variable is unset. -/
structure Env where
  rokuHost : Option String
  rokuDevTarget : Option String
deriving DecidableEq

/-- Python truthiness of a string-or-`None` value: `None` and the empty
string are falsy. -/
def truthy : Option String → Bool
  | none => false
  | some s => ¬ s = ""

/-- Python `a or b` on string-or-`None` values: `a` when truthy, else
`b`. -/
def pyOr (a b : Option String) : Option String := if truthy a then a else b

/-- Outcome of host resolution: a host string (Python returns the string),
the `None` absence value, or a propagating exception. -/
inductive HostResult where
  | found (h : String)
  | noHost
  | exc (msg : String)
deriving DecidableEq

/-- The `for _addr, text in responses` loop of `pick_host` (roku.py lines
63-69): parse each response's headers in arrival order; a falsy (absent or
empty) `location` is skipped; otherwise the location is URL-parsed — a
parse error propagates — and a truthy hostname is returned at once, a
falsy one skips to the next response; an exhausted loop falls through to
`return None`. -/
def scanResponses : List (String × String) → HostResult
  | [] => .noHost
  | (_addr, text) :: rest =>
    let loc := getPy (parse_ssdp_headers text) "location"
    if truthy loc then
      match urlparse_hostname (loc.getD "") with
      | .error e => .exc e
      | .ok h =>
        if truthy h then .found (h.getD "") else scanResponses rest
    else scanResponses rest

/-- `pick_host(args)` (roku.py lines 55-70): a truthy `--host` wins; then a
truthy `ROKU_HOST or ROKU_DEV_TARGET`; then, when `--auto` is set,
discovery runs (on a fresh socket state) and its responses are scanned;
otherwise `None`. -/
def pick_host (args : Args) (env : Env) (trace : List (ℚ × RecvEvent)) : HostResult :=
  if truthy args.host then .found (args.host.getD "")
  else
    let env_host := pyOr env.rokuHost env.rokuDevTarget
    if truthy env_host then .found (env_host.getD "")
    else if args.auto then
      match ssdp_discover args.timeout trace ⟨0⟩ with
      | .exc e _ => .exc e
      | .ok responses _ => scanResponses responses
    else .noHost

/-! ### `cmd_type` (roku.py lines 206-217)

The HTTP layer is abstracted by the status code the device returns to the
`n`-th POST of the run (`dev : Nat → Nat`); the model records the exit
code and the ordered list of URL paths actually posted. -/

/-- A byte kept verbatim by `urllib.parse.quote` with its default
`safe="/"`: ASCII alphanumerics, `_.-~` and `/`. -/
def quoteSafe (c : Char) : Bool :=
  c.isAlphanum || c = '_' || c = '.' || c = '-' || c = '~' || c = '/'

/-- Uppercase hexadecimal digit. -/
def hexDigit (n : Nat) : Char :=
  if n < 10 then Char.ofNat (48 + n) else Char.ofNat (55 + n)

/-- The UTF-8 encoding of one code point, as byte values. -/
def utf8Bytes (c : Char) : List Nat :=
  let n := c.toNat
  if n < 0x80 then [n]
  else if n < 0x800 then [0xc0 + n / 64, 0x80 + n % 64]
  else if n < 0x10000 then
    [0xe0 + n / 4096, 0x80 + n / 64 % 64, 0x80 + n % 64]
  else
    [0xf0 + n / 262144, 0x80 + n / 4096 % 64, 0x80 + n / 64 % 64, 0x80 + n % 64]

/-- `urllib.parse.quote(ch)` for a one-character string: safe characters
pass through, every other character is percent-encoded per UTF-8 byte with
uppercase hex. -/
def quoteChar (c : Char) : String :=
  if quoteSafe c then String.mk [c]
  else String.mk ((utf8Bytes c).foldr
    (fun b acc => '%' :: hexDigit (b / 16) :: hexDigit (b % 16) :: acc) [])

/-- The URL path posted for one typed character (roku.py lines 212-213). -/
def keypressPath (c : Char) : String :=
  "/keypress/Lit_" ++ quoteChar c

/-- Result of a `cmd_type` run: the process exit code and the paths
posted, in order. -/
structure TypeRun where
  exit : Nat
  sent : List String
deriving DecidableEq

/-- The `for ch in args.text` loop of `cmd_type` (roku.py lines 211-217):
POST one keypress per character; the first non-200 status returns exit
code 1 at once, a full pass returns 0.  `i` numbers the POSTs so that
`dev i` is the status of the `i`-th request. -/
def cmd_type_go (dev : Nat → Nat) : List Char → Nat → List String → TypeRun
  | [], _, sent => ⟨0, sent.reverse⟩
  | c :: rest, i, sent =>
    let path := keypressPath c
    if dev i = 200 then cmd_type_go dev rest (i + 1) (path :: sent)
    else ⟨1, (path :: sent).reverse⟩

/-- `cmd_type(args)` after host resolution succeeded (roku.py lines
206-217), abstracted over the device's per-request statuses. -/
def cmd_type (dev : Nat → Nat) (text : String) : TypeRun :=
  cmd_type_go dev text.toList 0 []

/-! ### Specification-level definitions (for refinement statements) -/

/-- First-of on optional strings. -/
def oOr : Option String → Option String → Option String
  | some v, _ => some v
  | none, b => b

/-- Specification-level lookup, written from the words of the spec (§4.1
and the HeaderMap data model): the value of the LAST line after the status
line that contains a colon and whose trimmed, lowercased key equals `k`,
with the value trimmed; `none` when no such line exists. -/
def lastHeaderValue : List String → String → Option String
  | [], _ => none
  | line :: rest, k =>
    oOr (lastHeaderValue rest k)
      (match splitFirstColon line with
       | none => none
       | some (k0, v) => if pyLower (pyStrip k0) = k then some (pyStrip v) else none)

/-- Device model used by the `cmd_type` witness: the first request
succeeds, every later one fails with status 500. -/
def devW : Nat → Nat := fun i => if i = 0 then 200 else 500

/-! ### Dict lemmas -/

/-- `getPy` after `insertPy`: the inserted key maps to the new value and
every other key is untouched. -/
theorem getPy_insertPy (m : List (String × String)) (k v k' : String) :
    getPy (insertPy m k v) k' = if k' = k then some v else getPy m k' := by
  induction m with
  | nil =>
    by_cases h : k = k'
    · subst h; simp [insertPy, getPy]
    · simp [insertPy, getPy, h, Ne.symm h]
  | cons hd rest ih =>
    obtain ⟨k0, v0⟩ := hd
    by_cases hk : k0 = k
    · subst hk
      by_cases h2 : k0 = k'
      · subst h2; simp [insertPy, getPy]
      · simp [insertPy, getPy, h2, Ne.symm h2]
    · by_cases h2 : k0 = k'
      · subst h2
        simp [insertPy, getPy, hk, Ne.symm hk]
      · simp [insertPy, getPy, hk, h2, ih]

theorem oOr_none (a : Option String) : oOr a none = a := by cases a <;> rfl

/-- Folding `headerStep` refines the direct last-match lookup. -/
theorem getPy_foldl_headerStep (lines : List String) (m : List (String × String))
    (k : String) :
    getPy (lines.foldl headerStep m) k = oOr (lastHeaderValue lines k) (getPy m k) := by
  induction lines generalizing m with
  | nil => rfl
  | cons line rest ih =>
    rw [List.foldl_cons, ih]
    cases hrest : lastHeaderValue rest k with
    | some v => simp [lastHeaderValue, hrest, oOr]
    | none =>
      simp only [lastHeaderValue, hrest, oOr]
      cases hsplit : splitFirstColon line with
      | none => simp [headerStep, hsplit, oOr]
      | some kv =>
        obtain ⟨k0, v0⟩ := kv
        by_cases hkey : pyLower (pyStrip k0) = k
        · simp [headerStep, hsplit, getPy_insertPy, hkey, oOr]
        · simp [headerStep, hsplit, getPy_insertPy, hkey, Ne.symm hkey, oOr]

/-- C2: the header parser skips the status line and, for each remaining
line, skips it when it has no colon and otherwise stores the trimmed value
under the trimmed lowercased key with last-write-wins; consequently, for
every input string and every key, looking the key up in the parsed map is
exactly the last-match lookup over the post-status lines — any header
present in the input is retrievable by its lowercased trimmed name
regardless of original casing. -/
theorem parse_headers_last_write_lookup (raw k : String) :
    getPy (parse_ssdp_headers raw) k
      = lastHeaderValue ((pySplitlines raw).drop 1) k := by
  unfold parse_ssdp_headers
  rw [getPy_foldl_headerStep]
  exact oOr_none _

/-- A fold over lines none of which has a colon changes nothing. -/
theorem foldl_headerStep_skip (lines : List String) (m : List (String × String))
    (h : ∀ l ∈ lines, splitFirstColon l = none) :
    lines.foldl headerStep m = m := by
  induction lines generalizing m with
  | nil => rfl
  | cons line rest ih =>
    rw [List.foldl_cons]
    rw [show headerStep m line = m from by
      simp [headerStep, h line (List.mem_cons_self _ _)]]
    exact ih _ (fun l hl => h l (List.mem_cons_of_mem _ hl))

/-- C6: the parser is a total function of the input string (the embedding
is a terminating Lean function built only from total operations, so no
input can fail); malformed input degrades: when no line after the status
line contains a colon the result is the empty map, and the empty input
also yields the empty map. -/
theorem parse_headers_total_degrades :
    (∀ raw : String, (∀ l ∈ (pySplitlines raw).drop 1, splitFirstColon l = none) →
        parse_ssdp_headers raw = [])
    ∧ parse_ssdp_headers "" = [] := by
  constructor
  · intro raw h
    exact foldl_headerStep_skip _ _ h
  · rfl

theorem parse_headers_total_degrades_witness :
    parse_ssdp_headers "HTTP/1.1 200 OK\r\ngarbage line\r\nanother - no colon at all" = [] :=
  parse_headers_total_degrades.1 _ (by decide)

/-- C10: a header line whose key part trims to the empty string (such as
a line starting with a colon) is not skipped: the parser stores its
trimmed value under the empty-string key. -/
theorem empty_key_line_inserted :
    (∀ (m : List (String × String)) (line k v : String),
        splitFirstColon line = some (k, v) → pyStrip k = "" →
        headerStep m line = insertPy m "" (pyStrip v)
        ∧ getPy (headerStep m line) "" = some (pyStrip v))
    ∧ parse_ssdp_headers "HTTP/1.1 200 OK\r\n: value\r\n" = [("", "value")] := by
  constructor
  · intro m line k v hsplit hkey
    have hstep : headerStep m line = insertPy m "" (pyStrip v) := by
      simp only [headerStep, hsplit, hkey]
      rfl
    refine ⟨hstep, ?_⟩
    rw [hstep, getPy_insertPy]
    simp
  · decide

theorem empty_key_line_inserted_witness :
    headerStep [] ": value" = insertPy [] "" "value"
    ∧ getPy (headerStep [] ": value") "" = some "value" := by
  have h := empty_key_line_inserted.1 [] ": value" "" " value" (by decide) (by decide)
  exact ⟨h.1.trans (by decide), h.2.trans (by decide)⟩

/-- C9: during the auto-discovery scan, a response whose parsed headers
give the location key an empty value is treated exactly as one with no
location header at all: it is skipped and the scan continues with the
remaining responses in arrival order. -/
theorem empty_location_skipped (addr text : String) (rest : List (String × String))
    (h : getPy (parse_ssdp_headers text) "location" = some ""
         ∨ getPy (parse_ssdp_headers text) "location" = none) :
    scanResponses ((addr, text) :: rest) = scanResponses rest := by
  rcases h with h | h <;> simp [scanResponses, h, truthy]

theorem empty_location_skipped_witness :
    scanResponses
        [("10.0.0.7", "HTTP/1.1 200 OK\r\nLOCATION:\r\n"),
         ("10.0.0.5", "HTTP/1.1 200 OK\r\nLOCATION: http://10.0.0.5:8060/\r\n")]
      = scanResponses
        [("10.0.0.5", "HTTP/1.1 200 OK\r\nLOCATION: http://10.0.0.5:8060/\r\n")] :=
  empty_location_skipped _ _ _ (Or.inl (by decide))

/-! ### Host-resolution priority and discovery theorems -/

/-- C1: host resolution tries its sources in fixed order with
short-circuiting.  A provided non-empty `--host` is returned verbatim for
every environment, auto flag and network trace; with `--host` absent or
empty, a set non-empty `ROKU_HOST` is returned; with both falsy, a set
non-empty `ROKU_DEV_TARGET` is returned — in the last two cases for every
trace and auto flag, so discovery is never consulted. -/
theorem pick_host_priority (args : Args) (env : Env) (trace : List (ℚ × RecvEvent)) :
    (∀ h, args.host = some h → h ≠ "" → pick_host args env trace = .found h)
    ∧ ((args.host = none ∨ args.host = some "") →
        ∀ s, env.rokuHost = some s → s ≠ "" → pick_host args env trace = .found s)
    ∧ ((args.host = none ∨ args.host = some "") →
        (env.rokuHost = none ∨ env.rokuHost = some "") →
        ∀ s, env.rokuDevTarget = some s → s ≠ "" →
          pick_host args env trace = .found s) := by
  refine ⟨?_, ?_, ?_⟩
  · intro h hh hne
    simp [pick_host, hh, truthy, hne]
  · intro h0 s hs hsne
    rcases h0 with h0 | h0 <;>
      simp [pick_host, h0, truthy, pyOr, hs, hsne]
  · intro h0 h1 s hs hsne
    rcases h0 with h0 | h0 <;> rcases h1 with h1 | h1 <;>
      simp [pick_host, h0, h1, truthy, pyOr, hs, hsne]

theorem pick_host_priority_witness :
    pick_host ⟨some "1.2.3.4", true, -7⟩ ⟨some "9.9.9.9", some "8.8.8.8"⟩ []
      = .found "1.2.3.4" :=
  (pick_host_priority _ _ _).1 "1.2.3.4" rfl (by decide)

/-- C3 counterexample: a negative timeout does not yield an empty result —
`sock.settimeout(-1)` raises `ValueError: Timeout value out of range`
before any receive is attempted, and the exception propagates. -/
theorem ssdp_discover_negative_raises :
    ssdp_discover (-1) [] ⟨0⟩ = .exc "ValueError: Timeout value out of range" ⟨1⟩
    ∧ ssdp_discover (-1) [] ⟨0⟩ ≠ .ok [] ⟨1⟩ :=
  ⟨rfl, by decide⟩

/-- C3 (amended): a timeout of zero returns an immediately empty response
list with no error (the loop guard fails at once, no receive is
attempted), while a negative timeout raises `ValueError` when the socket
timeout is configured, again without any receive. -/
theorem ssdp_discover_nonpositive (trace : List (ℚ × RecvEvent)) (st : SockState)
    (hτ : ∀ p ∈ trace, 0 ≤ p.1) :
    ssdp_discover 0 trace st = .ok [] (sockOpen st)
    ∧ ∀ timeout : Int, timeout < 0 →
        ssdp_discover timeout trace st
          = .exc "ValueError: Timeout value out of range" (sockOpen st) := by
  constructor
  · cases trace with
    | nil => rfl
    | cons p rest =>
      obtain ⟨t, ev⟩ := p
      have h1 : 0 ≤ t := hτ (t, ev) (List.mem_cons_self _ _)
      have h0 : ¬ t < (0 : ℚ) := not_lt.mpr h1
      simp [ssdp_discover, recvLoop, h0]
  · intro timeout hneg
    simp [ssdp_discover, hneg]

theorem ssdp_discover_nonpositive_witness :
    ssdp_discover 0 [((0 : ℚ), .pkt "10.0.0.5" "hi")] ⟨0⟩ = .ok [] ⟨1⟩
    ∧ ssdp_discover (-2) [((0 : ℚ), .pkt "10.0.0.5" "hi")] ⟨0⟩
        = .exc "ValueError: Timeout value out of range" ⟨1⟩ := by
  have h := ssdp_discover_nonpositive [((0 : ℚ), .pkt "10.0.0.5" "hi")] ⟨0⟩ (by decide)
  exact ⟨h.1, h.2 (-2) (by decide)⟩

/-- The collect loop never changes the socket state: its body contains no
`close`. -/
theorem recvLoop_sockets (timeout : Int) (st : SockState) (trace : List (ℚ × RecvEvent))
    (acc : List (String × String)) :
    (recvLoop timeout st trace acc).sockets = st := by
  induction trace generalizing acc with
  | nil => rfl
  | cons p rest ih =>
    obtain ⟨t, ev⟩ := p
    by_cases hlt : t < (timeout : ℚ)
    · cases ev with
      | pkt addr text =>
        simp only [recvLoop, if_pos hlt]
        exact ih _
      | sockTimeout => simp only [recvLoop, if_pos hlt]; rfl
      | osError => simp only [recvLoop, if_pos hlt]; rfl
    · simp only [recvLoop, if_neg hlt]; rfl

/-- C4 counterexample: in a run where the receive attempt raises an error
mid-loop, control leaves `ssdp_discover` with the socket still open — the
source has no `close` call, `with` block or `try/finally`, so no release
happens before the call returns. -/
theorem ssdp_socket_open_on_error :
    ssdp_discover 3 [((0 : ℚ), .osError)] ⟨0⟩ = .exc "OSError" ⟨1⟩
    ∧ ((ssdp_discover 3 [((0 : ℚ), .osError)] ⟨0⟩).sockets).openSockets ≠ 0 :=
  ⟨by decide, by decide⟩

/-- C4 (amended): the UDP socket is acquired at the start of the discovery
call and is never explicitly released by it: on every path — normal
return, timeout-triggered exit, or an error propagating mid-loop — control
leaves `ssdp_discover` with exactly the acquired socket still open;
release is left to the runtime's garbage collection. -/
theorem ssdp_socket_never_closed (timeout : Int) (trace : List (ℚ × RecvEvent))
    (st : SockState) :
    (ssdp_discover timeout trace st).sockets = sockOpen st := by
  by_cases hneg : timeout < 0
  · simp [ssdp_discover, hneg, DiscResult.sockets]
  · simp [ssdp_discover, hneg, recvLoop_sockets]

/-- C5 counterexample: with no explicit host, no environment override and
the auto flag set, a single discovery response whose location header is a
half-bracketed URL makes the resolver raise `ValueError("Invalid IPv6
URL")` out of `urlparse` — it does not return the absence value, although
no response yields a hostname. -/
theorem pick_host_auto_raises_on_bad_location :
    pick_host ⟨none, true, 3⟩ ⟨none, none⟩
        [((0 : ℚ), .pkt "10.0.0.9" "HTTP/1.1 200 OK\r\nLOCATION: http://[oops\r\n")]
      = .exc "Invalid IPv6 URL"
    ∧ pick_host ⟨none, true, 3⟩ ⟨none, none⟩
        [((0 : ℚ), .pkt "10.0.0.9" "HTTP/1.1 200 OK\r\nLOCATION: http://[oops\r\n")]
      ≠ .noHost :=
  ⟨by decide, by decide⟩

/-- C5 (amended): with no explicit host, no environment override and the
auto flag set, the resolver scans the discovery responses in arrival
order: the first response whose location header parses (without error) to
a truthy hostname terminates the scan with that hostname; a response with
a falsy location, or whose location yields no hostname, is skipped; a
location on which URL parsing raises aborts resolution with that error;
when every response is skipped — in particular for an empty discovery
result — the resolver returns the no-host absence value (for a negative
timeout, discovery itself raises and that error propagates). -/
theorem pick_host_auto_scan (args : Args) (env : Env) (trace : List (ℚ × RecvEvent))
    (hh : truthy args.host = false)
    (he : truthy (pyOr env.rokuHost env.rokuDevTarget) = false)
    (ha : args.auto = true) :
    (∀ rs st, ssdp_discover args.timeout trace ⟨0⟩ = .ok rs st →
        pick_host args env trace = scanResponses rs)
    ∧ scanResponses [] = .noHost
    ∧ (∀ addr text rest, truthy (getPy (parse_ssdp_headers text) "location") = false →
        scanResponses ((addr, text) :: rest) = scanResponses rest)
    ∧ (∀ addr text rest loc, getPy (parse_ssdp_headers text) "location" = some loc →
        loc ≠ "" → urlparse_hostname loc = .ok none →
        scanResponses ((addr, text) :: rest) = scanResponses rest)
    ∧ (∀ addr text rest loc h, getPy (parse_ssdp_headers text) "location" = some loc →
        loc ≠ "" → urlparse_hostname loc = .ok (some h) → h ≠ "" →
        scanResponses ((addr, text) :: rest) = .found h)
    ∧ (∀ addr text rest loc e, getPy (parse_ssdp_headers text) "location" = some loc →
        loc ≠ "" → urlparse_hostname loc = .error e →
        scanResponses ((addr, text) :: rest) = .exc e)
    ∧ (args.timeout < 0 →
        pick_host args env trace = .exc "ValueError: Timeout value out of range") := by
  refine ⟨?_, rfl, ?_, ?_, ?_, ?_, ?_⟩
  · intro rs st hd
    simp [pick_host, hh, he, ha, hd]
  · intro addr text rest hloc
    simp [scanResponses, hloc]
  · intro addr text rest loc h1 h2 h3
    simp [scanResponses, h1, truthy, h2, h3]
  · intro addr text rest loc h h1 h2 h3 h4
    simp [scanResponses, h1, truthy, h2, h3, h4]
  · intro addr text rest loc e h1 h2 h3
    simp [scanResponses, h1, truthy, h2, h3]
  · intro hneg
    have hd : ssdp_discover args.timeout trace ⟨0⟩
        = .exc "ValueError: Timeout value out of range" (sockOpen ⟨0⟩) := by
      simp [ssdp_discover, hneg]
    simp [pick_host, hh, he, ha, hd]

theorem pick_host_auto_scan_witness :
    pick_host ⟨none, true, 3⟩ ⟨none, none⟩ [((0 : ℚ), .sockTimeout)] = scanResponses []
    ∧ scanResponses [] = .noHost := by
  have h := pick_host_auto_scan ⟨none, true, 3⟩ ⟨none, none⟩ [((0 : ℚ), .sockTimeout)]
    rfl rfl rfl
  exact ⟨h.1 [] ⟨1⟩ (by decide), h.2.1⟩

/-- C7: the simulated discovery reply parses to exactly the two-entry map,
and auto-discover host resolution over a discovery session delivering this
single response yields the hostname 10.0.0.5. -/
theorem end_to_end_discovery_example :
    parse_ssdp_headers
        "HTTP/1.1 200 OK\r\nLOCATION: http://10.0.0.5:8060/\r\nUSN: uuid:device::roku:ecp\r\n"
      = [("location", "http://10.0.0.5:8060/"), ("usn", "uuid:device::roku:ecp")]
    ∧ pick_host ⟨none, true, 3⟩ ⟨none, none⟩
        [((0 : ℚ), .pkt "10.0.0.5"
          "HTTP/1.1 200 OK\r\nLOCATION: http://10.0.0.5:8060/\r\nUSN: uuid:device::roku:ecp\r\n")]
      = .found "10.0.0.5" :=
  ⟨by decide, by decide⟩

/-! ### `cmd_type` theorems -/

/-- When every pending request will succeed, the loop posts every
character and exits with code 0. -/
theorem cmd_type_go_all_ok (dev : Nat → Nat) (cs : List Char) (i : Nat)
    (sent : List String) (h : ∀ j, j < cs.length → dev (i + j) = 200) :
    cmd_type_go dev cs i sent = ⟨0, sent.reverse ++ cs.map keypressPath⟩ := by
  induction cs generalizing i sent with
  | nil => simp [cmd_type_go]
  | cons c rest ih =>
    have h0 : dev i = 200 := by simpa using h 0 (by simp)
    have h1 : ∀ j, j < rest.length → dev (i + 1 + j) = 200 := by
      intro j hj
      have := h (j + 1) (by simpa using Nat.succ_lt_succ hj)
      rwa [show i + (j + 1) = i + 1 + j by omega] at this
    simp only [cmd_type_go, h0, if_pos]
    rw [ih (i + 1) (keypressPath c :: sent) h1]
    simp

/-- When the `k`-th pending request is the first to fail, the loop exits
with code 1 having posted exactly the first `k + 1` characters. -/
theorem cmd_type_go_first_fail (dev : Nat → Nat) (cs : List Char) (i : Nat)
    (sent : List String) (k : Nat) (hk : k < cs.length)
    (hok : ∀ j, j < k → dev (i + j) = 200) (hfail : dev (i + k) ≠ 200) :
    cmd_type_go dev cs i sent
      = ⟨1, sent.reverse ++ (cs.take (k + 1)).map keypressPath⟩ := by
  induction cs generalizing i sent k with
  | nil => simp at hk
  | cons c rest ih =>
    cases k with
    | zero =>
      have h0 : dev i ≠ 200 := by simpa using hfail
      simp [cmd_type_go, h0]
    | succ k0 =>
      have h0 : dev i = 200 := by simpa using hok 0 (Nat.succ_pos _)
      have hk0 : k0 < rest.length := by simpa using hk
      have hok0 : ∀ j, j < k0 → dev (i + 1 + j) = 200 := by
        intro j hj
        have := hok (j + 1) (Nat.succ_lt_succ hj)
        rwa [show i + (j + 1) = i + 1 + j by omega] at this
      have hfail0 : dev (i + 1 + k0) ≠ 200 := by
        rwa [show i + (k0 + 1) = i + 1 + k0 by omega] at hfail
      simp only [cmd_type_go, h0, if_pos]
      rw [ih (i + 1) (keypressPath c :: sent) k0 hk0 hok0 hfail0]
      simp

/-- The loop exits with 0 exactly when every pending request succeeds. -/
theorem cmd_type_go_exit_zero_iff (dev : Nat → Nat) (cs : List Char) (i : Nat)
    (sent : List String) :
    (cmd_type_go dev cs i sent).exit = 0 ↔ ∀ j, j < cs.length → dev (i + j) = 200 := by
  induction cs generalizing i sent with
  | nil => simp [cmd_type_go]
  | cons c rest ih =>
    by_cases h0 : dev i = 200
    · rw [show cmd_type_go dev (c :: rest) i sent
          = cmd_type_go dev rest (i + 1) (keypressPath c :: sent) from by
        simp [cmd_type_go, h0]]
      rw [ih]
      constructor
      · intro hall j hj
        cases j with
        | zero => simpa using h0
        | succ j0 =>
          have := hall j0 (by simpa using hj)
          rwa [show i + 1 + j0 = i + (j0 + 1) by omega] at this
      · intro hall j hj
        have := hall (j + 1) (by simpa using Nat.succ_lt_succ hj)
        rwa [show i + (j + 1) = i + 1 + j by omega] at this
    · rw [show cmd_type_go dev (c :: rest) i sent
          = ⟨1, (keypressPath c :: sent).reverse⟩ from by simp [cmd_type_go, h0]]
      constructor
      · intro h
        exact absurd h one_ne_zero
      · intro hall
        exact absurd (by simpa using hall 0 (by simp)) h0

/-- C8: `cmd_type` sends one keypress POST per character of the text in
order, each character quoted and prefixed with `Lit_`; it exits with 0
exactly when every request it makes returns 200, in which case every
character was posted; on the first non-200 it exits with 1 immediately,
having posted exactly the characters up to and including the failing one
and none after it. -/
theorem cmd_type_spec (dev : Nat → Nat) (text : String) :
    ((cmd_type dev text).exit = 0 ↔ ∀ j, j < text.toList.length → dev j = 200)
    ∧ ((∀ j, j < text.toList.length → dev j = 200) →
        (cmd_type dev text).sent = text.toList.map keypressPath)
    ∧ (∀ k, k < text.toList.length → (∀ j, j < k → dev j = 200) → dev k ≠ 200 →
        (cmd_type dev text).exit = 1
        ∧ (cmd_type dev text).sent = (text.toList.take (k + 1)).map keypressPath) := by
  refine ⟨?_, ?_, ?_⟩
  · simpa [cmd_type] using cmd_type_go_exit_zero_iff dev text.toList 0 []
  · intro h
    have hz := cmd_type_go_all_ok dev text.toList 0 []
      (by intro j hj; simpa using h j hj)
    show (cmd_type_go dev text.toList 0 []).sent = _
    rw [hz]
    simp
  · intro k hk hok hf
    have hz := cmd_type_go_first_fail dev text.toList 0 [] k hk
      (by intro j hj; simpa using hok j hj) (by simpa using hf)
    refine ⟨?_, ?_⟩
    · show (cmd_type_go dev text.toList 0 []).exit = 1
      rw [hz]
    · show (cmd_type_go dev text.toList 0 []).sent = _
      rw [hz]
      simp

theorem cmd_type_spec_witness :
    (cmd_type devW "ab").exit = 1
    ∧ (cmd_type devW "ab").sent = ["/keypress/Lit_a", "/keypress/Lit_b"] := by
  have h := (cmd_type_spec devW "ab").2.2 1 (by decide) (by decide) (by decide)
  exact ⟨h.1, h.2.trans (by decide)⟩

end Roku
